import Mathlib

/-!
Shallow embedding of the slot-based daily backtester of
`src/quanttrade/models_2.0/backtest_optimized.py` (the "optimized hybrid exit"
variant), of the indicator kitchen `calculate_stagnation_indicators`, and of the
summary metrics of `src/quanttrade/backtest/engine.py`.

Prices, cash and scores are modelled as exact rationals (the Python floats),
trading days as natural-number indices into the ordered list of test dates,
and the per-day data (`test_grouped.get_group(dt)`) as a list of bars.
-/

/- Batteries marks the `Rat` field operations `@[irreducible]`, which blocks
`decide`-style evaluation of concrete rational arithmetic; restore the default
reducibility (proof checking is unaffected). -/
set_option allowUnsafeReducibility true in
attribute [semireducible] Rat.mul Rat.add Rat.sub Rat.inv

namespace QuantTrade

/-- Configuration constants of `backtest_optimized.py` (module-level). -/
def HORIZON : ℕ := 20

def STOP_LOSS : ℚ := -(5/100)

def TAKE_PROFIT : ℚ := 10/100

def MAX_POSITIONS : ℕ := 5

def INITIAL_CAPITAL : ℚ := 100000

def COMMISSION : ℚ := 2/1000

def SLIPPAGE_BUY : ℚ := 1/100

def SLIPPAGE_SELL : ℚ := 5/1000

def TOP_K : ℕ := 5

/-- One row of `today_data` for one symbol: the daily bar joined with the
model score and the precomputed indicator columns used by the exit rules
(`stagnant_count_3d`, which is `none` where pandas holds NaN, and
`is_rs_weak`). -/
structure Bar where
  sym : String
  price_open : ℚ
  price_high : ℚ
  price_low : ℚ
  price_close : ℚ
  score : ℚ
  stagnant_count_3d : Option ℚ
  is_rs_weak : Bool
deriving Repr, DecidableEq

/-- An open position dict of the `portfolio` list. -/
structure Position where
  symbol : String
  entry_price : ℚ
  shares : ℤ
  entry_date : ℕ
  days_held : ℕ
  exit_planned_date : Option ℕ
  exit_reason_planned : Option String
deriving Repr, DecidableEq

/-- One record of `trade_log`. -/
structure Trade where
  exit_date : ℕ
  symbol : String
  entry_date : ℕ
  entry_price : ℚ
  exit_price : ℚ
  ret : ℚ
  reason : String
  days_held : ℕ
deriving Repr, DecidableEq

/-- `sym in today_data.index` / `today_data.loc[sym]` (symbols are unique per
day in the source data). -/
def findBar (today : List Bar) (sym : String) : Option Bar :=
  today.find? (fun b => b.sym == sym)

/-- Step 1 of the daily loop: planned exits.  The Python `for i in
range(len(portfolio)-1, -1, -1)` walks the list from its last element to its
first, popping filled positions; we recurse on the tail first so that cash
credits and trade appends happen in the same order. -/
def step1 (dt : ℕ) (today : List Bar) :
    List Position → ℚ → List Position × ℚ × List Trade
  | [], cash => ([], cash, [])
  | p :: ps, cash =>
    let r := step1 dt today ps cash
    if p.exit_planned_date = some dt then
      match findBar today p.symbol with
      | none => (p :: r.1, r.2.1, r.2.2)
      | some row =>
        let exit_price := row.price_open * (1 - SLIPPAGE_SELL)
        let revenue := (p.shares : ℚ) * exit_price
        let commission := revenue * COMMISSION
        (r.1, r.2.1 + (revenue - commission),
          r.2.2 ++ [{ exit_date := dt, symbol := p.symbol,
                      entry_date := p.entry_date, entry_price := p.entry_price,
                      exit_price := exit_price,
                      ret := exit_price / p.entry_price - 1,
                      reason := p.exit_reason_planned.getD "PLANNED",
                      days_held := p.days_held }])
    else (p :: r.1, r.2.1, r.2.2)

/-- Step 2 of the daily loop: the intraday stop-loss check, same reverse
walk.  A position with no bar today, or whose low stays above the stop
level, has `days_held` incremented and stays. -/
def step2 (dt : ℕ) (today : List Bar) :
    List Position → ℚ → List Position × ℚ × List Trade
  | [], cash => ([], cash, [])
  | p :: ps, cash =>
    let r := step2 dt today ps cash
    match findBar today p.symbol with
    | none => ({ p with days_held := p.days_held + 1 } :: r.1, r.2.1, r.2.2)
    | some row =>
      let stop_level := p.entry_price * (1 + STOP_LOSS)
      if row.price_low ≤ stop_level then
        let exit_price := if row.price_open ≤ stop_level then row.price_open else stop_level
        let revenue := (p.shares : ℚ) * exit_price
        let commission := revenue * COMMISSION
        (r.1, r.2.1 + (revenue - commission),
          r.2.2 ++ [{ exit_date := dt, symbol := p.symbol,
                      entry_date := p.entry_date, entry_price := p.entry_price,
                      exit_price := exit_price,
                      ret := exit_price / p.entry_price - 1,
                      reason := "STOP_LOSS", days_held := p.days_held }])
      else ({ p with days_held := p.days_held + 1 } :: r.1, r.2.1, r.2.2)

/-- Truncating float-to-int conversion, Python's `int(x)` (toward zero). -/
def pyInt (q : ℚ) : ℤ :=
  if q < 0 then ⌈q⌉ else ⌊q⌋

/-- Descending insertion by `score`: our model of
`today_data.sort_values("score", ascending=False)`. -/
def insertByScore (b : Bar) : List Bar → List Bar
  | [] => [b]
  | c :: cs => if c.score < b.score then b :: c :: cs else c :: insertByScore b cs

/-- Sort today's bars by score, descending. -/
def sortByScoreDesc : List Bar → List Bar
  | [] => []
  | b :: bs => insertByScore b (sortByScoreDesc bs)

/-- `row.get('stagnant_count_3d', 0) >= 3` with pandas NaN semantics: a NaN
cell (modelled `none`) compares false. -/
def stagnantCountAtLeast3 : Option ℚ → Bool
  | none => false
  | some q => 3 ≤ q

/-- Step 3 of the daily loop for one position: the first-match-wins chain of
exit rules A (performance fail), B (stagnation), C (relative weakness),
D (time exit), E (model take-profit).  Only positions with no plan yet, a bar
today and an existing next trading day are considered. -/
def planExit (next_dt : Option ℕ) (today : List Bar) (top_symbols : List String)
    (p : Position) : Position :=
  if p.exit_planned_date ≠ none then p
  else
    match next_dt, findBar today p.symbol with
    | some nd, some row =>
      let days := p.days_held
      let ret_close := row.price_close / p.entry_price - 1
      if 8 ≤ days ∧ ret_close < -(2/100) ∧ p.symbol ∉ top_symbols then
        { p with exit_planned_date := some nd,
                 exit_reason_planned := some "PERF_FAIL_RELAXED" }
      else if 10 < days ∧ stagnantCountAtLeast3 row.stagnant_count_3d = true ∧
          ret_close < 3/100 then
        { p with exit_planned_date := some nd,
                 exit_reason_planned := some "STAGNATION_EXIT" }
      else if 5 < days ∧ row.is_rs_weak = true ∧ p.symbol ∉ top_symbols then
        { p with exit_planned_date := some nd,
                 exit_reason_planned := some "WEAK_RS_EXIT" }
      else if HORIZON ≤ days then
        { p with exit_planned_date := some nd,
                 exit_reason_planned := some "TIME_EXIT" }
      else if TAKE_PROFIT ≤ ret_close ∧ p.symbol ∉ top_symbols then
        { p with exit_planned_date := some nd,
                 exit_reason_planned := some "MODEL_TP" }
      else p
    | _, _ => p

/-- Step 4 of the daily loop: walk the ranked candidates while free slots
remain, skipping held symbols and candidates without a next-day bar; size
each entry from `cash / free_slots` and fill it only if affordable. -/
def step4 (next_dt : ℕ) (next_day_data : Option (List Bar)) :
    List Bar → ℚ → List Position → ℤ → ℚ × List Position
  | [], cash, port, _ => (cash, port)
  | b :: bs, cash, port, free_slots =>
    if free_slots ≤ 0 then (cash, port)
    else if port.any (fun p => p.symbol == b.sym) then
      step4 next_dt next_day_data bs cash port free_slots
    else
      match next_day_data.bind (fun nd => findBar nd b.sym) with
      | none => step4 next_dt next_day_data bs cash port free_slots
      | some nrow =>
        let entry_price := nrow.price_open * (1 + SLIPPAGE_BUY)
        let shares := pyInt ((cash / free_slots) / entry_price)
        if 0 < shares then
          let cost := (shares : ℚ) * entry_price * (1 + COMMISSION)
          if cost ≤ cash then
            step4 next_dt next_day_data bs (cash - cost)
              (port ++ [{ symbol := b.sym, entry_price := entry_price,
                          shares := shares, entry_date := next_dt,
                          days_held := 0, exit_planned_date := none,
                          exit_reason_planned := none }])
              (free_slots - 1)
          else step4 next_dt next_day_data bs cash port free_slots
        else step4 next_dt next_day_data bs cash port free_slots

/-- Simulator state: cash, the open-position list, and the two output
ledgers. -/
structure BTState where
  cash : ℚ
  portfolio : List Position
  trade_log : List Trade
  equity_curve : List (ℕ × ℚ)
deriving Repr, DecidableEq

/-- Step 5: mark-to-market value of the open positions (last close today,
falling back to the entry price when the symbol has no bar today). -/
def portValue (today : List Bar) (port : List Position) : ℚ :=
  (port.map (fun p => (p.shares : ℚ) *
    (match findBar today p.symbol with
     | some row => row.price_close
     | none => p.entry_price))).sum

/-- One full trading-day transition of the `for dt in dates` loop: planned
exits, stop-loss check, exit planning, entries, equity snapshot.  `market`
is the list of per-day bar lists, indexed by trading-day number. -/
def dayStep (market : List (List Bar)) (dt : ℕ) (s : BTState) : BTState :=
  match market.get? dt with
  | none => s
  | some today =>
    let next_dt := if dt + 1 < market.length then some (dt + 1) else none
    let r1 := step1 dt today s.portfolio s.cash
    let r2 := step2 dt today r1.1 r1.2.1
    let today_sorted := sortByScoreDesc today
    let top_symbols := (today_sorted.take TOP_K).map Bar.sym
    let port3 := r2.1.map (planExit next_dt today top_symbols)
    let free_slots : ℤ := (MAX_POSITIONS : ℤ) - port3.length
    let r4 :=
      match next_dt with
      | some nd =>
        if 0 < free_slots then
          step4 nd (market.get? nd) (today_sorted.take TOP_K) r2.2.1 port3 free_slots
        else (r2.2.1, port3)
      | none => (r2.2.1, port3)
    { cash := r4.1, portfolio := r4.2,
      trade_log := s.trade_log ++ r1.2.2 ++ r2.2.2,
      equity_curve := s.equity_curve ++ [(dt, r4.1 + portValue today r4.2)] }

/-- The initial portfolio state. -/
def initState : BTState :=
  { cash := INITIAL_CAPITAL, portfolio := [], trade_log := [], equity_curve := [] }

/-- The simulation after the first `n` trading days. -/
def runN (market : List (List Bar)) : ℕ → BTState
  | 0 => initState
  | n + 1 => dayStep market n (runN market n)

/-- The whole backtest run over `market`. -/
def run (market : List (List Bar)) : BTState :=
  runN market market.length

/-! ## Specification-side definitions (for the refinement claims)

The exit-rule chain of the spec, §4.2 step 3: an ordered list of
(condition, reason) rules, first match wins.  The spec's threshold
parameters `PATIENCE_DAYS`, `STAGNATION_MIN_HOLD_DAYS`,
`WEAKNESS_MIN_HOLD_DAYS` are the literals `8`, `10`, `5` inlined in
`backtest_optimized.py`. -/

def PATIENCE_DAYS : ℕ := 8

def STAGNATION_MIN_HOLD_DAYS : ℕ := 10

def WEAKNESS_MIN_HOLD_DAYS : ℕ := 5

/-- The spec's ordered exit-rule list for one position, each entry a decided
condition paired with its reason. -/
def specExitRules (top_symbols : List String) (row : Bar) (p : Position) :
    List (Bool × String) :=
  [ (decide (PATIENCE_DAYS ≤ p.days_held ∧
       row.price_close / p.entry_price - 1 < -(2/100) ∧
       p.symbol ∉ top_symbols), "PERF_FAIL_RELAXED"),
    (decide (STAGNATION_MIN_HOLD_DAYS < p.days_held ∧
       stagnantCountAtLeast3 row.stagnant_count_3d = true ∧
       row.price_close / p.entry_price - 1 < 3/100), "STAGNATION_EXIT"),
    (decide (WEAKNESS_MIN_HOLD_DAYS < p.days_held ∧ row.is_rs_weak = true ∧
       p.symbol ∉ top_symbols), "WEAK_RS_EXIT"),
    (decide (HORIZON ≤ p.days_held), "TIME_EXIT"),
    (decide (TAKE_PROFIT ≤ row.price_close / p.entry_price - 1 ∧
       p.symbol ∉ top_symbols), "MODEL_TP") ]

/-- First-match-wins selection over an ordered rule list. -/
def firstMatch : List (Bool × String) → Option String
  | [] => none
  | (b, r) :: rest => if b then some r else firstMatch rest

/-- The spec's step 3 for one position: take the first matching rule of the
priority list and let it alone set the plan for the next trading day. -/
def specPlanExit (next_dt : Option ℕ) (today : List Bar)
    (top_symbols : List String) (p : Position) : Position :=
  if p.exit_planned_date ≠ none then p
  else
    match next_dt, findBar today p.symbol with
    | some nd, some row =>
      match firstMatch (specExitRules top_symbols row p) with
      | some r =>
        { p with exit_planned_date := some nd, exit_reason_planned := some r }
      | none => p
    | _, _ => p

/-! ## Invariant vocabulary -/

/-- The five reason strings that step 3 can store in a plan. -/
def planReasons : List String :=
  ["PERF_FAIL_RELAXED", "STAGNATION_EXIT", "WEAK_RS_EXIT", "TIME_EXIT", "MODEL_TP"]

/-- Every reason string the optimized backtester can attach to a `Trade`:
`STOP_LOSS` from step 2, the `PLANNED` fallback of `pos.get(...)`, and the
five plan reasons. -/
def tradeReasons : List String := "STOP_LOSS" :: "PLANNED" :: planReasons

/-- A position's stored plan reason, if any, is one of step 3's strings. -/
def posReasonsWF (p : Position) : Prop :=
  p.exit_reason_planned = none ∨
    ∃ r ∈ planReasons, p.exit_reason_planned = some r

/-- Financial well-formedness of a position: nonnegative entry price and a
positive share count (as every entry fill creates). -/
def posCashWF (p : Position) : Prop :=
  0 ≤ p.entry_price ∧ 0 < p.shares

/-- All open prices in the market data are nonnegative. -/
def opensNonneg (market : List (List Bar)) : Prop :=
  ∀ day ∈ market, ∀ b ∈ day, 0 ≤ b.price_open

/-! ## Indicator engine (`calculate_stagnation_indicators`)

The input is a frame of rows sorted by `(symbol, date)`.  The code computes
`tr1`/`tr2` with `df[PRICE_COL].shift(1)`, i.e. against the close of the
*previous row of the whole frame*, not the previous row of the same symbol
(the grouping by symbol happens only afterwards, for the rolling windows).
`trListCode` embeds that; `trListSpec` is the per-symbol reference. -/

structure PriceRow where
  symbol : String
  price_high : ℚ
  price_low : ℚ
  price_close : ℚ
deriving Repr, DecidableEq

/-- One row's true range given the previous row's close (if any).  A missing
previous close makes `tr1`/`tr2` NaN, which `DataFrame.max` skips, leaving
`tr0 = |high - low|`. -/
def trueRange (prevClose : Option ℚ) (r : PriceRow) : ℚ :=
  match prevClose with
  | none => |r.price_high - r.price_low|
  | some c =>
    max (|r.price_high - r.price_low|)
      (max (|r.price_high - c|) (|r.price_low - c|))

/-- The code's `tr` column: the previous close is the previous row of the
frame, whatever its symbol. -/
def trListCode : Option ℚ → List PriceRow → List ℚ
  | _, [] => []
  | prev, r :: rs => trueRange prev r :: trListCode (some r.price_close) rs

/-- Modelled from the spec: "true range = max(high−low, |high−prev_close|,
|low−prev_close|) where prev_close is the same symbol's previous close".
The previous close is carried per symbol: a row starting a new symbol has
none. -/
def trListSpec : Option PriceRow → List PriceRow → List ℚ
  | _, [] => []
  | prev, r :: rs =>
    let prevClose :=
      match prev with
      | some q => if q.symbol = r.symbol then some q.price_close else none
      | none => none
    trueRange prevClose r :: trListSpec (some r) rs

/-- Two symbols, sorted by (symbol, date): the single row of "A" followed by
the first row of "B". -/
def rowsC9 : List PriceRow :=
  [{ symbol := "A", price_high := 1000, price_low := 990, price_close := 1000 },
   { symbol := "B", price_high := 10, price_low := 9, price_close := 19/2 }]

/-! ## Summary metrics (`BacktestEngine.calculate_metrics` and the win rate
of `backtest_advanced.py`) -/

/-- pandas `Series.pct_change()` after `dropna`: consecutive ratios minus
one. -/
def pctChange : List ℚ → List ℚ
  | a :: b :: rest => (b / a - 1) :: pctChange (b :: rest)
  | _ => []

/-- pandas `mean()`. -/
def listMean (l : List ℚ) : ℚ := l.sum / l.length

/-- pandas `var()` with its default `ddof=1`. -/
def sampleVar (l : List ℚ) : ℚ :=
  (l.map (fun x => (x - listMean l)^2)).sum / ((l.length : ℚ) - 1)

/-- pandas `std()` (square root of the `ddof=1` variance), as a real. -/
noncomputable def sampleStd (l : List ℚ) : ℝ :=
  Real.sqrt ((sampleVar l : ℚ) : ℝ)

/-- `engine.py`: `(mean_return / std_return) * np.sqrt(252) if std_return != 0
else 0`. -/
noncomputable def sharpe_ratio (rets : List ℚ) : ℝ :=
  if sampleStd rets = 0 then 0
  else ((listMean rets : ℚ) : ℝ) / sampleStd rets * Real.sqrt 252

/-- The spec's Sharpe: mean over std times the annualization factor, with no
guard. -/
noncomputable def ref_sharpe (rets : List ℚ) : ℝ :=
  ((listMean rets : ℚ) : ℝ) / sampleStd rets * Real.sqrt 252

/-- `engine.py`: `total_return = (final_value - initial_capital) /
initial_capital` where `final_value` is the last portfolio value. -/
def total_return (initial : ℚ) (vals : List ℚ) : ℚ :=
  (vals.getLastD 0 - initial) / initial

/-- The spec's total return: `final_equity / initial_equity - 1`. -/
def ref_total_return (initial : ℚ) (vals : List ℚ) : ℚ :=
  vals.getLastD 0 / initial - 1

/-- pandas `cummax()` continuation: running maxima with seed `m`. -/
def runningMaxFrom (m : ℚ) : List ℚ → List ℚ
  | [] => []
  | v :: vs => max m v :: runningMaxFrom (max m v) vs

/-- pandas `cummax()`. -/
def runningMax : List ℚ → List ℚ
  | [] => []
  | v :: vs => v :: runningMaxFrom v vs

/-- `engine.py`: `drawdown = (portfolio_value - cumulative_max) /
cumulative_max`. -/
def drawdowns (vals : List ℚ) : List ℚ :=
  List.zipWith (fun v m => (v - m) / m) vals (runningMax vals)

/-- pandas `Series.min()` over a nonempty series, `0` as the (unused) empty
default. -/
def listMin : List ℚ → ℚ
  | [] => 0
  | v :: vs => vs.foldl min v

/-- `engine.py`: `max_drawdown = drawdown.min()`. -/
def max_drawdown (vals : List ℚ) : ℚ := listMin (drawdowns vals)

/-- The spec's max drawdown: the minimum over time of
`(equity - running_max) / running_max`, folded from the right. -/
def ref_max_drawdown (vals : List ℚ) : ℚ :=
  match drawdowns vals with
  | [] => 0
  | d :: ds => ds.foldr min d

/-- `backtest_advanced.py`: `(tr['return'] > 0).mean()`. -/
def win_rate (rets : List ℚ) : ℚ :=
  ((rets.filter (fun r => 0 < r)).length : ℚ) / rets.length

/-- The spec's win rate: the fraction of trades with a positive return. -/
def ref_win_rate (rets : List ℚ) : ℚ :=
  ((rets.countP (fun r => decide (0 < r))) : ℚ) / rets.length

/-! ## Concrete inputs for counterexamples and witnesses -/

/-- Bar constructor with neutral indicator columns. -/
def mkBar (s : String) (o h l c sc : ℚ) : Bar :=
  { sym := s, price_open := o, price_high := h, price_low := l,
    price_close := c, score := sc, stagnant_count_3d := none,
    is_rs_weak := false }

/-- Ten trading days for one symbol "A" (entered on day 1 at fill 101,
stop level 95.95): flat through day 7, a -2.97% close on day 8 — where five
fresh symbols crowd "A" out of the top 5 and the performance-fail rule
plans an exit for day 9 — and a day-9 bar whose low 95 also satisfies the
stop-loss condition while the planned exit fills at the open. -/
def mktC1 : List (List Bar) :=
  [ [mkBar "A" 100 100 100 100 1],
    [mkBar "A" 100 101 99 100 1],
    [mkBar "A" 100 101 99 100 1],
    [mkBar "A" 100 101 99 100 1],
    [mkBar "A" 100 101 99 100 1],
    [mkBar "A" 100 101 99 100 1],
    [mkBar "A" 100 101 99 100 1],
    [mkBar "A" 100 101 99 100 1],
    [mkBar "A" 99 99 97 98 (1/10), mkBar "B" 50 50 50 50 (9/10),
     mkBar "C" 50 50 50 50 (9/10), mkBar "D" 50 50 50 50 (9/10),
     mkBar "E" 50 50 50 50 (9/10), mkBar "F" 50 50 50 50 (9/10)],
    [mkBar "A" 99 100 95 96 1] ]

/-- Same ten days with a calm day-9 bar: the planned performance-fail exit
fills on day 9 with reason `PERF_FAIL_RELAXED`. -/
def mktC7 : List (List Bar) :=
  [ [mkBar "A" 100 100 100 100 1],
    [mkBar "A" 100 101 99 100 1],
    [mkBar "A" 100 101 99 100 1],
    [mkBar "A" 100 101 99 100 1],
    [mkBar "A" 100 101 99 100 1],
    [mkBar "A" 100 101 99 100 1],
    [mkBar "A" 100 101 99 100 1],
    [mkBar "A" 100 101 99 100 1],
    [mkBar "A" 99 99 97 98 (1/10), mkBar "B" 50 50 50 50 (9/10),
     mkBar "C" 50 50 50 50 (9/10), mkBar "D" 50 50 50 50 (9/10),
     mkBar "E" 50 50 50 50 (9/10), mkBar "F" 50 50 50 50 (9/10)],
    [mkBar "A" 99 100 98 99 1] ]

/-- Eight trading days: "A" entered on day 1, `is_rs_weak` on day 6 where
six symbols trade and "A" has the lowest score, so the relative-weakness
rule plans an exit — on the same day 6 on which `days_held` was already
incremented from 5 to 6 by the stop-loss pass. -/
def mktC8 : List (List Bar) :=
  [ [mkBar "A" 100 100 100 100 1],
    [mkBar "A" 100 101 99 100 1],
    [mkBar "A" 100 101 99 100 1],
    [mkBar "A" 100 101 99 100 1],
    [mkBar "A" 100 101 99 100 1],
    [mkBar "A" 100 101 99 100 1],
    [{ mkBar "A" 100 101 99 100 (1/10) with is_rs_weak := true },
     mkBar "B" 50 50 50 50 (9/10), mkBar "C" 50 50 50 50 (9/10),
     mkBar "D" 50 50 50 50 (9/10), mkBar "E" 50 50 50 50 (9/10),
     mkBar "F" 50 50 50 50 (9/10)],
    [mkBar "A" 100 101 99 100 1] ]

/-- A position whose planned exit date 1 falls on a day with no bar for its
symbol. -/
def posC5 : Position :=
  { symbol := "A", entry_price := 100, shares := 10, entry_date := 0,
    days_held := 3, exit_planned_date := some 1,
    exit_reason_planned := some "TIME_EXIT" }

/-- Days 1..3: no bar for "A" on its planned exit day 1, bars again on days
2 and 3. -/
def mktC5 : List (List Bar) :=
  [ [mkBar "A" 100 101 99 100 1],
    [],
    [mkBar "A" 100 101 99 100 1],
    [mkBar "A" 100 101 99 100 1] ]

/-- State holding `posC5` just before its planned exit day. -/
def stC5 : BTState :=
  { cash := 1000, portfolio := [posC5], trade_log := [], equity_curve := [] }

/-- A tiny two-day market used by the hypothesis witnesses: one symbol, one
entry. -/
def mktW : List (List Bar) :=
  [ [mkBar "A" 100 100 100 100 1],
    [mkBar "A" 100 101 99 100 1] ]

/-- The bar of the stop-loss scenario of the spec with a gap-down open 90
(entry 100, stop level 95, low 93). -/
def barGap : Bar := mkBar "A" 90 97 93 94 1

/-- The same scenario with an intraday touch: open 97. -/
def barTouch : Bar := mkBar "A" 97 99 93 94 1

/-- The position of the stop-loss scenario: entry price 100. -/
def posC3 : Position :=
  { symbol := "A", entry_price := 100, shares := 10, entry_date := 0,
    days_held := 3, exit_planned_date := none, exit_reason_planned := none }

/-- A position with a planned exit for day 0 (stored reason `TIME_EXIT`),
used to instantiate the planned-exit theorems. -/
def posW1 : Position :=
  { symbol := "A", entry_price := 100, shares := 10, entry_date := 0,
    days_held := 3, exit_planned_date := some 0,
    exit_reason_planned := some "TIME_EXIT" }

/-- The position created on day 0 of `mktW` (fill 101, 198 shares, dated to
day 1). -/
def posW : Position :=
  { symbol := "A", entry_price := 101, shares := 198, entry_date := 1,
    days_held := 0, exit_planned_date := none, exit_reason_planned := none }

/-! ## Theorems -/

theorem findBar_mem {today : List Bar} {s : String} {row : Bar}
    (h : findBar today s = some row) : row ∈ today :=
  List.mem_of_find?_eq_some h

theorem fill_credit_nonneg (shares : ℤ) (price : ℚ) (hs : 0 < shares)
    (hp : 0 ≤ price) :
    0 ≤ (shares : ℚ) * price - (shares : ℚ) * price * COMMISSION := by
  have h1 : 0 ≤ (shares : ℚ) * price :=
    mul_nonneg (by exact_mod_cast hs.le) hp
  have h2 : (shares : ℚ) * price - (shares : ℚ) * price * COMMISSION =
      (shares : ℚ) * price * (1 - COMMISSION) := by ring
  rw [h2]
  exact mul_nonneg h1 (by norm_num [COMMISSION])

theorem step1_portfolio_sub (dt : ℕ) (today : List Bar) :
    ∀ (ps : List Position) (cash : ℚ) (q : Position),
      q ∈ (step1 dt today ps cash).1 → q ∈ ps := by
  intro ps
  induction ps with
  | nil => intro cash q h; simp [step1] at h
  | cons p ps ih =>
    intro cash q h
    by_cases hplan : p.exit_planned_date = some dt
    · cases hbar : findBar today p.symbol with
      | none =>
        simp only [step1, hplan, hbar, if_pos] at h
        rcases List.mem_cons.mp h with h1 | h2
        · exact h1 ▸ List.mem_cons_self _ _
        · exact List.mem_cons_of_mem _ (ih _ _ h2)
      | some row =>
        simp only [step1, hplan, hbar, if_pos] at h
        exact List.mem_cons_of_mem _ (ih _ _ h)
    · simp only [step1, if_neg hplan] at h
      rcases List.mem_cons.mp h with h1 | h2
      · exact h1 ▸ List.mem_cons_self _ _
      · exact List.mem_cons_of_mem _ (ih _ _ h2)

theorem step1_cash_mono (dt : ℕ) (today : List Bar)
    (hopen : ∀ b ∈ today, 0 ≤ b.price_open) :
    ∀ (ps : List Position) (cash : ℚ),
      (∀ p ∈ ps, posCashWF p) → cash ≤ (step1 dt today ps cash).2.1 := by
  intro ps
  induction ps with
  | nil => intro cash _; simp [step1]
  | cons p ps ih =>
    intro cash hwf
    have hwfp := hwf p (List.mem_cons_self _ _)
    have hwfs : ∀ p' ∈ ps, posCashWF p' :=
      fun p' hp' => hwf p' (List.mem_cons_of_mem _ hp')
    have hrec := ih cash hwfs
    by_cases hplan : p.exit_planned_date = some dt
    · cases hbar : findBar today p.symbol with
      | none => simpa only [step1, hplan, hbar, if_pos] using hrec
      | some row =>
        have hrow : 0 ≤ row.price_open := hopen row (findBar_mem hbar)
        have hcredit : 0 ≤
            (p.shares : ℚ) * (row.price_open * (1 - SLIPPAGE_SELL)) -
              (p.shares : ℚ) * (row.price_open * (1 - SLIPPAGE_SELL)) * COMMISSION :=
          fill_credit_nonneg _ _ hwfp.2
            (mul_nonneg hrow (by norm_num [SLIPPAGE_SELL]))
        simp only [step1, hplan, hbar, if_pos]
        linarith
    · simpa only [step1, if_neg hplan] using hrec

theorem step1_trades_reason (dt : ℕ) (today : List Bar) :
    ∀ (ps : List Position) (cash : ℚ) (t : Trade),
      t ∈ (step1 dt today ps cash).2.2 →
      ∃ p ∈ ps, t.reason = p.exit_reason_planned.getD "PLANNED" := by
  intro ps
  induction ps with
  | nil => intro cash t h; simp [step1] at h
  | cons p ps ih =>
    intro cash t h
    by_cases hplan : p.exit_planned_date = some dt
    · cases hbar : findBar today p.symbol with
      | none =>
        simp only [step1, hplan, hbar, if_pos] at h
        obtain ⟨p', hp', he⟩ := ih _ _ h
        exact ⟨p', List.mem_cons_of_mem _ hp', he⟩
      | some row =>
        simp only [step1, hplan, hbar, if_pos] at h
        rcases List.mem_append.mp h with h1 | h2
        · obtain ⟨p', hp', he⟩ := ih _ _ h1
          exact ⟨p', List.mem_cons_of_mem _ hp', he⟩
        · rcases List.mem_singleton.mp h2 with rfl
          exact ⟨p, List.mem_cons_self _ _, rfl⟩
    · simp only [step1, if_neg hplan] at h
      obtain ⟨p', hp', he⟩ := ih _ _ h
      exact ⟨p', List.mem_cons_of_mem _ hp', he⟩

theorem step2_portfolio_mem (dt : ℕ) (today : List Bar) :
    ∀ (ps : List Position) (cash : ℚ) (q : Position),
      q ∈ (step2 dt today ps cash).1 →
      ∃ p ∈ ps, q = { p with days_held := p.days_held + 1 } := by
  intro ps
  induction ps with
  | nil => intro cash q h; simp [step2] at h
  | cons p ps ih =>
    intro cash q h
    cases hbar : findBar today p.symbol with
    | none =>
      simp only [step2, hbar] at h
      rcases List.mem_cons.mp h with h1 | h2
      · exact ⟨p, List.mem_cons_self _ _, h1⟩
      · obtain ⟨p', hp', he⟩ := ih _ _ h2
        exact ⟨p', List.mem_cons_of_mem _ hp', he⟩
    | some row =>
      by_cases hlow : row.price_low ≤ p.entry_price * (1 + STOP_LOSS)
      · simp only [step2, hbar, if_pos hlow] at h
        obtain ⟨p', hp', he⟩ := ih _ _ h
        exact ⟨p', List.mem_cons_of_mem _ hp', he⟩
      · simp only [step2, hbar, if_neg hlow] at h
        rcases List.mem_cons.mp h with h1 | h2
        · exact ⟨p, List.mem_cons_self _ _, h1⟩
        · obtain ⟨p', hp', he⟩ := ih _ _ h2
          exact ⟨p', List.mem_cons_of_mem _ hp', he⟩

theorem step2_cash_mono (dt : ℕ) (today : List Bar)
    (hopen : ∀ b ∈ today, 0 ≤ b.price_open) :
    ∀ (ps : List Position) (cash : ℚ),
      (∀ p ∈ ps, posCashWF p) → cash ≤ (step2 dt today ps cash).2.1 := by
  intro ps
  induction ps with
  | nil => intro cash _; simp [step2]
  | cons p ps ih =>
    intro cash hwf
    have hwfp := hwf p (List.mem_cons_self _ _)
    have hrec := ih cash fun p' hp' => hwf p' (List.mem_cons_of_mem _ hp')
    cases hbar : findBar today p.symbol with
    | none => simpa only [step2, hbar] using hrec
    | some row =>
      by_cases hlow : row.price_low ≤ p.entry_price * (1 + STOP_LOSS)
      · have hrow : 0 ≤ row.price_open := hopen row (findBar_mem hbar)
        have hstop : 0 ≤ p.entry_price * (1 + STOP_LOSS) :=
          mul_nonneg hwfp.1 (by norm_num [STOP_LOSS])
        have hfill : 0 ≤
            (if row.price_open ≤ p.entry_price * (1 + STOP_LOSS) then
              row.price_open else p.entry_price * (1 + STOP_LOSS)) := by
          split <;> assumption
        have hcredit := fill_credit_nonneg p.shares _ hwfp.2 hfill
        simp only [step2, hbar, if_pos hlow]
        linarith
      · simpa only [step2, hbar, if_neg hlow] using hrec

theorem step2_trades_reason (dt : ℕ) (today : List Bar) :
    ∀ (ps : List Position) (cash : ℚ) (t : Trade),
      t ∈ (step2 dt today ps cash).2.2 → t.reason = "STOP_LOSS" := by
  intro ps
  induction ps with
  | nil => intro cash t h; simp [step2] at h
  | cons p ps ih =>
    intro cash t h
    cases hbar : findBar today p.symbol with
    | none =>
      simp only [step2, hbar] at h
      exact ih _ _ h
    | some row =>
      by_cases hlow : row.price_low ≤ p.entry_price * (1 + STOP_LOSS)
      · simp only [step2, hbar, if_pos hlow] at h
        rcases List.mem_append.mp h with h1 | h2
        · exact ih _ _ h1
        · rcases List.mem_singleton.mp h2 with rfl; rfl
      · simp only [step2, hbar, if_neg hlow] at h
        exact ih _ _ h

theorem planExit_cases (next_dt : Option ℕ) (today : List Bar)
    (top_symbols : List String) (p : Position) :
    planExit next_dt today top_symbols p = p ∨
      (p.exit_planned_date = none ∧ ∃ nd r, next_dt = some nd ∧
        r ∈ planReasons ∧
        planExit next_dt today top_symbols p =
          { p with exit_planned_date := some nd,
                   exit_reason_planned := some r }) := by
  obtain ⟨sym, ep, sh, ed, dh, epd, erp⟩ := p
  cases epd with
  | some d => left; simp [planExit]
  | none =>
    cases hn : next_dt with
    | none => left; simp [planExit]
    | some nd =>
      cases hf : findBar today sym with
      | none => left; simp [planExit, hf]
      | some row =>
        simp only [planExit, hf, ne_eq, not_true_eq_false, if_false,
          not_false_eq_true, if_true, reduceIte]
        split_ifs <;>
          first
          | (right; refine ⟨by simp, nd, _, rfl, ?_, rfl⟩; decide)
          | (left; rfl)

theorem step4_cash_nonneg (nd : ℕ) (ndata : Option (List Bar)) :
    ∀ (bs : List Bar) (cash : ℚ) (port : List Position) (free : ℤ),
      0 ≤ cash → 0 ≤ (step4 nd ndata bs cash port free).1 := by
  intro bs
  induction bs with
  | nil => intro cash port free h; simpa [step4] using h
  | cons b bs ih =>
    intro cash port free h
    by_cases hfree : free ≤ 0
    · simpa [step4, if_pos hfree] using h
    · by_cases hheld : port.any (fun p => p.symbol == b.sym) = true
      · simp only [step4, if_neg hfree, hheld, if_pos]
        exact ih _ _ _ h
      · cases hbar : ndata.bind (fun L => findBar L b.sym) with
        | none =>
          simp only [step4, if_neg hfree, hheld, Bool.false_eq_true,
            if_false, hbar]
          exact ih _ _ _ h
        | some nrow =>
          simp only [step4, if_neg hfree, hheld, Bool.false_eq_true,
            if_false, hbar]
          split_ifs with h1 h2
          · exact ih _ _ _ (by linarith)
          · exact ih _ _ _ h
          · exact ih _ _ _ h

theorem step4_portfolio_mem (nd : ℕ) (ndata : Option (List Bar)) :
    ∀ (bs : List Bar) (cash : ℚ) (port : List Position) (free : ℤ)
      (q : Position), q ∈ (step4 nd ndata bs cash port free).2 →
      q ∈ port ∨
        (q.days_held = 0 ∧ q.exit_planned_date = none ∧
          q.exit_reason_planned = none ∧ q.entry_date = nd ∧ 0 < q.shares ∧
          ∃ L nrow, ndata = some L ∧ nrow ∈ L ∧
            q.entry_price = nrow.price_open * (1 + SLIPPAGE_BUY)) := by
  intro bs
  induction bs with
  | nil => intro cash port free q h; left; simpa [step4] using h
  | cons b bs ih =>
    intro cash port free q h
    by_cases hfree : free ≤ 0
    · left; simpa [step4, if_pos hfree] using h
    · by_cases hheld : port.any (fun p => p.symbol == b.sym) = true
      · simp only [step4, if_neg hfree, hheld, if_pos] at h
        exact ih _ _ _ _ h
      · cases hbar : ndata.bind (fun L => findBar L b.sym) with
        | none =>
          simp only [step4, if_neg hfree, hheld, Bool.false_eq_true,
            if_false, hbar] at h
          exact ih _ _ _ _ h
        | some nrow =>
          simp only [step4, if_neg hfree, hheld, Bool.false_eq_true,
            if_false, hbar] at h
          split_ifs at h with h1 h2
          · rcases ih _ _ _ _ h with hq | hq
            · rcases List.mem_append.mp hq with hq1 | hq2
              · exact Or.inl hq1
              · rcases List.mem_singleton.mp hq2 with rfl
                refine Or.inr ⟨rfl, rfl, rfl, rfl, h1, ?_⟩
                obtain ⟨L, hL⟩ : ∃ L, ndata = some L := by
                  cases hL : ndata with
                  | none => rw [hL] at hbar; simp at hbar
                  | some L => exact ⟨L, rfl⟩
                refine ⟨L, nrow, hL, ?_, rfl⟩
                rw [hL] at hbar
                exact findBar_mem (by simpa using hbar)
            · exact Or.inr hq
          · exact ih _ _ _ _ h
          · exact ih _ _ _ _ h

theorem step23_portfolio_mem (dt : ℕ) (today : List Bar) (next_dt : Option ℕ)
    (tops : List String) (ps : List Position) (cash : ℚ) (q : Position)
    (hq : q ∈ (step2 dt today ps cash).1.map (planExit next_dt today tops)) :
    ∃ p ∈ ps, q.symbol = p.symbol ∧ q.entry_price = p.entry_price ∧
      q.shares = p.shares ∧ q.entry_date = p.entry_date ∧
      q.days_held = p.days_held + 1 ∧
      ((q.exit_planned_date = p.exit_planned_date ∧
        q.exit_reason_planned = p.exit_reason_planned) ∨
       (p.exit_planned_date = none ∧ ∃ nd, next_dt = some nd ∧
        q.exit_planned_date = some nd ∧
        ∃ r ∈ planReasons, q.exit_reason_planned = some r)) := by
  obtain ⟨p2, hp2, rfl⟩ := List.mem_map.mp hq
  obtain ⟨p, hp, rfl⟩ := step2_portfolio_mem dt today ps cash p2 hp2
  rcases planExit_cases next_dt today tops { p with days_held := p.days_held + 1 }
    with he | ⟨hnone, nd, r, hnd, hr, he⟩
  · rw [he]
    exact ⟨p, hp, rfl, rfl, rfl, rfl, rfl, Or.inl ⟨rfl, rfl⟩⟩
  · rw [he]
    exact ⟨p, hp, rfl, rfl, rfl, rfl, rfl,
      Or.inr ⟨hnone, nd, hnd, rfl, r, hr, rfl⟩⟩

theorem dayStep_portfolio_mem (market : List (List Bar)) (dt : ℕ) (s : BTState)
    (today : List Bar) (hget : market.get? dt = some today) (q : Position)
    (hq : q ∈ (dayStep market dt s).portfolio) :
    (q.days_held = 0 ∧ q.exit_planned_date = none ∧
      q.exit_reason_planned = none ∧ q.entry_date = dt + 1 ∧ 0 < q.shares ∧
      ∃ L nrow, market.get? (dt + 1) = some L ∧ nrow ∈ L ∧
        q.entry_price = nrow.price_open * (1 + SLIPPAGE_BUY)) ∨
    ∃ p ∈ s.portfolio, q.symbol = p.symbol ∧ q.entry_price = p.entry_price ∧
      q.shares = p.shares ∧ q.entry_date = p.entry_date ∧
      q.days_held = p.days_held + 1 ∧
      ((q.exit_planned_date = p.exit_planned_date ∧
        q.exit_reason_planned = p.exit_reason_planned) ∨
       (p.exit_planned_date = none ∧ q.exit_planned_date = some (dt + 1) ∧
        ∃ r ∈ planReasons, q.exit_reason_planned = some r)) := by
  simp only [dayStep, hget] at hq
  by_cases hlen : dt + 1 < market.length
  · simp only [if_pos hlen] at hq
    split_ifs at hq with hfree
    · rcases step4_portfolio_mem _ _ _ _ _ _ q hq with hq3 | hfresh
      · obtain ⟨p, hp, h⟩ := step23_portfolio_mem _ _ _ _ _ _ q hq3
        have hp0 := step1_portfolio_sub dt today _ _ p hp
        refine Or.inr ⟨p, hp0, h.1, h.2.1, h.2.2.1, h.2.2.2.1, h.2.2.2.2.1, ?_⟩
        rcases h.2.2.2.2.2 with h' | ⟨hnone, nd, hnd, hpd, hr⟩
        · exact Or.inl h'
        · rcases Option.some.inj hnd.symm  with rfl
          exact Or.inr ⟨hnone, hpd, hr⟩
      · obtain ⟨hdh, hpd, hrp, hed, hsh, L, nrow, hL, hmem, hep⟩ := hfresh
        exact Or.inl ⟨hdh, hpd, hrp, hed, hsh, L, nrow, hL, hmem, hep⟩
    · obtain ⟨p, hp, h⟩ := step23_portfolio_mem _ _ _ _ _ _ q hq
      have hp0 := step1_portfolio_sub dt today _ _ p hp
      refine Or.inr ⟨p, hp0, h.1, h.2.1, h.2.2.1, h.2.2.2.1, h.2.2.2.2.1, ?_⟩
      rcases h.2.2.2.2.2 with h' | ⟨hnone, nd, hnd, hpd, hr⟩
      · exact Or.inl h'
      · rcases Option.some.inj hnd.symm with rfl
        exact Or.inr ⟨hnone, hpd, hr⟩
  · simp only [if_neg hlen] at hq
    obtain ⟨p, hp, h⟩ := step23_portfolio_mem _ _ _ _ _ _ q hq
    have hp0 := step1_portfolio_sub dt today _ _ p hp
    refine Or.inr ⟨p, hp0, h.1, h.2.1, h.2.2.1, h.2.2.2.1, h.2.2.2.2.1, ?_⟩
    rcases h.2.2.2.2.2 with h' | ⟨_, nd, hnd, _⟩
    · exact Or.inl h'
    · exact absurd hnd (by simp)

theorem dayStep_trades_mem (market : List (List Bar)) (dt : ℕ) (s : BTState)
    (t : Trade) (ht : t ∈ (dayStep market dt s).trade_log) :
    t ∈ s.trade_log ∨
      (∃ p ∈ s.portfolio, t.reason = p.exit_reason_planned.getD "PLANNED") ∨
      t.reason = "STOP_LOSS" := by
  cases hget : market.get? dt with
  | none =>
    simp only [dayStep, hget] at ht
    exact Or.inl ht
  | some today =>
    simp only [dayStep, hget] at ht
    rcases List.mem_append.mp ht with h12 | h2
    · rcases List.mem_append.mp h12 with h0 | h1
      · exact Or.inl h0
      · exact Or.inr (Or.inl (step1_trades_reason dt today _ _ t h1))
    · exact Or.inr (Or.inr (step2_trades_reason dt today _ _ t h2))

theorem dayStep_cash_nonneg (market : List (List Bar))
    (hmkt : opensNonneg market) (dt : ℕ) (s : BTState) (hc : 0 ≤ s.cash)
    (hp : ∀ p ∈ s.portfolio, posCashWF p) :
    0 ≤ (dayStep market dt s).cash := by
  cases hget : market.get? dt with
  | none => simpa only [dayStep, hget] using hc
  | some today =>
    have htoday : ∀ b ∈ today, 0 ≤ b.price_open :=
      fun b hb => hmkt today (List.get?_mem hget) b hb
    have h1c := step1_cash_mono dt today htoday s.portfolio s.cash hp
    have h1p : ∀ p ∈ (step1 dt today s.portfolio s.cash).1, posCashWF p :=
      fun p h => hp p (step1_portfolio_sub dt today _ _ p h)
    have h2c := step2_cash_mono dt today htoday
      (step1 dt today s.portfolio s.cash).1
      (step1 dt today s.portfolio s.cash).2.1 h1p
    simp only [dayStep, hget]
    by_cases hlen : dt + 1 < market.length
    · simp only [if_pos hlen]
      split_ifs with hfree
      · exact step4_cash_nonneg _ _ _ _ _ _ (by linarith)
      · simp only []; linarith
    · simp only [if_neg hlen]; linarith

theorem dayStep_posCashWF (market : List (List Bar))
    (hmkt : opensNonneg market) (dt : ℕ) (s : BTState)
    (hp : ∀ p ∈ s.portfolio, posCashWF p) :
    ∀ q ∈ (dayStep market dt s).portfolio, posCashWF q := by
  intro q hq
  cases hget : market.get? dt with
  | none =>
    simp only [dayStep, hget] at hq
    exact hp q hq
  | some today =>
    rcases dayStep_portfolio_mem market dt s today hget q hq with hfresh | hold
    · obtain ⟨_, _, _, _, hsh, L, nrow, hL, hmem, hep⟩ := hfresh
      refine ⟨?_, hsh⟩
      rw [hep]
      exact mul_nonneg (hmkt L (List.get?_mem hL) nrow hmem)
        (by norm_num [SLIPPAGE_BUY])
    · obtain ⟨p, hpmem, _, hep, hsh, _⟩ := hold
      have h := hp p hpmem
      exact ⟨hep ▸ h.1, hsh ▸ h.2⟩

theorem runN_cashWF (market : List (List Bar)) (hmkt : opensNonneg market) :
    ∀ n : ℕ, 0 ≤ (runN market n).cash ∧
      ∀ p ∈ (runN market n).portfolio, posCashWF p := by
  intro n
  induction n with
  | zero =>
    constructor
    · norm_num [runN, initState, INITIAL_CAPITAL]
    · intro p h; simp [runN, initState] at h
  | succ n ih =>
    exact ⟨dayStep_cash_nonneg market hmkt n _ ih.1 ih.2,
      dayStep_posCashWF market hmkt n _ ih.2⟩

theorem planReasons_sub_tradeReasons {r : String} (h : r ∈ planReasons) :
    r ∈ tradeReasons :=
  List.mem_cons_of_mem _ (List.mem_cons_of_mem _ h)

theorem runN_reasonsWF (market : List (List Bar)) :
    ∀ n : ℕ, (∀ p ∈ (runN market n).portfolio, posReasonsWF p) ∧
      ∀ t ∈ (runN market n).trade_log, t.reason ∈ tradeReasons := by
  intro n
  induction n with
  | zero =>
    constructor <;> intro x h <;> simp [runN, initState] at h
  | succ n ih =>
    constructor
    · intro q hq
      cases hget : market.get? n with
      | none =>
        simp only [runN, dayStep, hget] at hq
        exact ih.1 q hq
      | some today =>
        rcases dayStep_portfolio_mem market n _ today hget q hq
          with hfresh | hold
        · exact Or.inl hfresh.2.2.1
        · obtain ⟨p, hpmem, _, _, _, _, _, hplan⟩ := hold
          rcases hplan with ⟨_, hrp⟩ | ⟨_, _, r, hr, hrp⟩
          · rcases ih.1 p hpmem with h0 | ⟨r, hr, h0⟩
            · exact Or.inl (hrp ▸ h0)
            · exact Or.inr ⟨r, hr, hrp ▸ h0⟩
          · exact Or.inr ⟨r, hr, hrp⟩
    · intro t ht
      rcases dayStep_trades_mem market n _ t ht with h0 | hpl | hsl
      · exact ih.2 t h0
      · obtain ⟨p, hpmem, he⟩ := hpl
        rcases ih.1 p hpmem with h0 | ⟨r, hr, h0⟩
        · rw [he, h0]; decide
        · rw [he, h0]
          exact planReasons_sub_tradeReasons hr
      · rw [hsl]; decide

/-- C2: For every open position with no planned exit already set, a bar today
and a next trading day, the exit rules are evaluated in the fixed
first-match-wins priority order performance-fail, stagnation, relative
weakness, time exit, model take-profit, with exactly the stated conditions
(performance-fail: `days_held ≥ PATIENCE_DAYS`, `close/entry − 1 < −0.02`,
symbol not among the `TOP_K` top symbols; stagnation:
`days_held > STAGNATION_MIN_HOLD_DAYS`, 3-day stagnation count `≥ 3`,
unrealized return `< 0.03`; weakness: `days_held > WEAKNESS_MIN_HOLD_DAYS`,
`is_rs_weak`, not in top; time: `days_held ≥ HORIZON`; take-profit:
unrealized return `≥ TAKE_PROFIT`, not in top), and the first matching rule
alone sets `planned_exit_date` to the next trading day with its reason: the
code's step-3 chain equals first-match selection over the spec's ordered
rule list. -/
theorem exit_rules_first_match_priority (next_dt : Option ℕ) (today : List Bar)
    (top_symbols : List String) (p : Position) :
    planExit next_dt today top_symbols p =
      specPlanExit next_dt today top_symbols p := by
  cases hn : next_dt <;> cases hf : findBar today p.symbol <;>
    simp only [planExit, specPlanExit, specExitRules, firstMatch,
      PATIENCE_DAYS, STAGNATION_MIN_HOLD_DAYS, WEAKNESS_MIN_HOLD_DAYS,
      decide_eq_true_eq, hn, hf] <;>
    split_ifs <;> rfl

/-- C1 (counterexample): a run in which a position's planned exit date and
its stop-loss condition are both satisfiable on day 9 (`findBar` returns the
day-9 bar, whose low 95 is at most the stop level `101 × (1 + STOP_LOSS)`),
yet the ledger records the planned-exit fill with reason
`PERF_FAIL_RELAXED` and no trade with reason `STOP_LOSS`: step 1 runs before
step 2 and removes the position first. -/
theorem stop_loss_precedence_counterexample :
    (runN mktC1 9).portfolio =
      [{ symbol := "A", entry_price := 101, shares := 198, entry_date := 1,
         days_held := 8, exit_planned_date := some 9,
         exit_reason_planned := some "PERF_FAIL_RELAXED" }] ∧
    findBar (mktC1.getD 9 []) "A" = some (mkBar "A" 99 100 95 96 1) ∧
    (95 : ℚ) ≤ 101 * (1 + STOP_LOSS) ∧
    (run mktC1).trade_log =
      [{ exit_date := 9, symbol := "A", entry_date := 1, entry_price := 101,
         exit_price := 19701/200, ret := -(499/20200),
         reason := "PERF_FAIL_RELAXED", days_held := 8 }] ∧
    (∀ t ∈ (run mktC1).trade_log, t.reason ≠ "STOP_LOSS") := by
  decide

/-- C5 (code bug, evaluated at the failing input): `posC5` has
`planned_exit_date = 1` and no bar on day 1; bars for its symbol exist again
on days 2 and 3, but because step 1 tests `exit_planned_date == dt` with
strict equality the exit is never retried: after days 1, 2 and 3 the ledger
is still empty and the position is still open with the stale plan (only
`days_held` kept growing). -/
theorem deferred_planned_exit_never_retried :
    (dayStep mktC5 2 (dayStep mktC5 1 stC5)).trade_log = [] ∧
    (dayStep mktC5 3 (dayStep mktC5 2 (dayStep mktC5 1 stC5))).trade_log = [] ∧
    (dayStep mktC5 3 (dayStep mktC5 2 (dayStep mktC5 1 stC5))).portfolio =
      [{ posC5 with days_held := 6 }] ∧
    findBar (mktC5.getD 1 []) "A" = none ∧
    findBar (mktC5.getD 2 []) "A" = some (mkBar "A" 100 101 99 100 1) := by
  decide

/-- C7 (counterexample): the optimized backtester's performance-fail exit is
recorded with reason string `PERF_FAIL_RELAXED`, which is not an element of
the claimed reason set (the claim lists `PERF_FAIL`): the `mktC7` run
appends exactly one trade and its reason lies outside the claimed set. -/
theorem exit_reason_set_counterexample :
    (run mktC7).trade_log =
      [{ exit_date := 9, symbol := "A", entry_date := 1, entry_price := 101,
         exit_price := 19701/200, ret := -(499/20200),
         reason := "PERF_FAIL_RELAXED", days_held := 8 }] ∧
    (∃ t ∈ (run mktC7).trade_log,
      t.reason ∉ ["STOP_LOSS", "PERF_FAIL", "STAGNATION_EXIT", "WEAK_RS_EXIT",
                  "TIME_EXIT", "MODEL_TP", "PLANNED"]) := by
  decide

/-- C8 (counterexample): on day 6 of `mktC8` the relative-weakness rule
matches in step 3 and sets the plan — and `days_held` is *also* incremented
(5 → 6) by the stop-loss pass of the same day's transition, contradicting
the claim that a plan-setting day does not also increment `days_held`. -/
theorem plan_day_also_increments_counterexample :
    (runN mktC8 6).portfolio =
      [{ symbol := "A", entry_price := 101, shares := 198, entry_date := 1,
         days_held := 5, exit_planned_date := none,
         exit_reason_planned := none }] ∧
    (runN mktC8 7).portfolio =
      [{ symbol := "A", entry_price := 101, shares := 198, entry_date := 1,
         days_held := 6, exit_planned_date := some 7,
         exit_reason_planned := some "WEAK_RS_EXIT" }] := by
  decide

/-- C1 (amended): when a position's planned exit date falls on day `dt` and a
bar exists — even one whose low satisfies the stop-loss condition — the
planned exit of step 1 fills first, at the open discounted by
`SLIPPAGE_SELL`, with the *stored* plan reason; the position is removed
before the stop-loss check of step 2 ever sees it, so the subsequent
stop-loss pass (over the now-empty remainder) emits no trade at all. -/
theorem planned_exit_fills_before_stop_check (dt : ℕ) (today : List Bar)
    (cash cash2 : ℚ) (p : Position) (row : Bar) (r : String)
    (hplan : p.exit_planned_date = some dt)
    (hreason : p.exit_reason_planned = some r)
    (hfind : findBar today p.symbol = some row)
    (hstop : row.price_low ≤ p.entry_price * (1 + STOP_LOSS)) :
    step1 dt today [p] cash =
      ([], cash + ((p.shares : ℚ) * (row.price_open * (1 - SLIPPAGE_SELL)) -
         (p.shares : ℚ) * (row.price_open * (1 - SLIPPAGE_SELL)) * COMMISSION),
       [{ exit_date := dt, symbol := p.symbol, entry_date := p.entry_date,
          entry_price := p.entry_price,
          exit_price := row.price_open * (1 - SLIPPAGE_SELL),
          ret := row.price_open * (1 - SLIPPAGE_SELL) / p.entry_price - 1,
          reason := r, days_held := p.days_held }]) ∧
    step2 dt today (step1 dt today [p] cash).1 cash2 = ([], cash2, []) := by
  have h1 : step1 dt today [p] cash =
      ([], cash + ((p.shares : ℚ) * (row.price_open * (1 - SLIPPAGE_SELL)) -
         (p.shares : ℚ) * (row.price_open * (1 - SLIPPAGE_SELL)) * COMMISSION),
       [{ exit_date := dt, symbol := p.symbol, entry_date := p.entry_date,
          entry_price := p.entry_price,
          exit_price := row.price_open * (1 - SLIPPAGE_SELL),
          ret := row.price_open * (1 - SLIPPAGE_SELL) / p.entry_price - 1,
          reason := r, days_held := p.days_held }]) := by
    simp [step1, hplan, hfind, hreason]
  exact ⟨h1, by rw [h1]; simp [step2]⟩

/-- C1 witness: the general theorem applied to a concrete planned exit
(`posW1`, planned for day 0, stored reason `TIME_EXIT`) on a bar whose low
93 satisfies the stop condition (stop level 95). -/
theorem planned_exit_fills_before_stop_check_witness :
    step1 0 [barTouch] [posW1] 0 =
      ([], 0 + ((posW1.shares : ℚ) * (barTouch.price_open * (1 - SLIPPAGE_SELL)) -
         (posW1.shares : ℚ) * (barTouch.price_open * (1 - SLIPPAGE_SELL)) * COMMISSION),
       [{ exit_date := 0, symbol := posW1.symbol, entry_date := posW1.entry_date,
          entry_price := posW1.entry_price,
          exit_price := barTouch.price_open * (1 - SLIPPAGE_SELL),
          ret := barTouch.price_open * (1 - SLIPPAGE_SELL) / posW1.entry_price - 1,
          reason := "TIME_EXIT", days_held := posW1.days_held }]) ∧
    step2 0 [barTouch] (step1 0 [barTouch] [posW1] 0).1 5 = ([], 5, []) :=
  planned_exit_fills_before_stop_check 0 [barTouch] 0 5 posW1 barTouch
    "TIME_EXIT" rfl rfl (by decide) (by decide)

/-- C3: when day `dt`'s low reaches the stop level
`entry_price × (1 + STOP_LOSS)`, the stop-loss fill equals the open when the
open gapped to or below the stop level and equals the stop level exactly
otherwise; no slippage enters the fill, and the cash credit is the notional
minus commission `fill × shares × COMMISSION`.  Concretely (entry 100,
`STOP_LOSS = −0.05`, low 93): open 90 fills at 90 and open 97 fills at 95. -/
theorem stop_loss_fill_price_and_commission (dt : ℕ) (today : List Bar)
    (p : Position) (row : Bar) (cash : ℚ)
    (hfind : findBar today p.symbol = some row)
    (hlow : row.price_low ≤ p.entry_price * (1 + STOP_LOSS)) :
    step2 dt today [p] cash =
      ([], cash +
        ((p.shares : ℚ) *
          (if row.price_open ≤ p.entry_price * (1 + STOP_LOSS) then
            row.price_open else p.entry_price * (1 + STOP_LOSS)) -
         (p.shares : ℚ) *
          (if row.price_open ≤ p.entry_price * (1 + STOP_LOSS) then
            row.price_open else p.entry_price * (1 + STOP_LOSS)) * COMMISSION),
       [{ exit_date := dt, symbol := p.symbol, entry_date := p.entry_date,
          entry_price := p.entry_price,
          exit_price := if row.price_open ≤ p.entry_price * (1 + STOP_LOSS) then
            row.price_open else p.entry_price * (1 + STOP_LOSS),
          ret := (if row.price_open ≤ p.entry_price * (1 + STOP_LOSS) then
            row.price_open else p.entry_price * (1 + STOP_LOSS)) / p.entry_price - 1,
          reason := "STOP_LOSS", days_held := p.days_held }]) ∧
    (step2 0 [barGap] [posC3] 0).2.2.map Trade.exit_price = [90] ∧
    (step2 0 [barTouch] [posC3] 0).2.2.map Trade.exit_price = [95] ∧
    (step2 0 [barGap] [posC3] 0).2.1 = 10 * 90 - 10 * 90 * COMMISSION ∧
    (step2 0 [barTouch] [posC3] 0).2.1 = 10 * 95 - 10 * 95 * COMMISSION := by
  refine ⟨?_, by decide, by decide, by decide, by decide⟩
  simp [step2, hfind, hlow]

/-- C3 witness: the general fill rule applied to the gap-down bar of the
spec's scenario (entry 100, low 93, open 90). -/
theorem stop_loss_fill_price_and_commission_witness :
    step2 7 [barGap] [posC3] 1000 =
      ([], 1000 +
        ((posC3.shares : ℚ) *
          (if barGap.price_open ≤ posC3.entry_price * (1 + STOP_LOSS) then
            barGap.price_open else posC3.entry_price * (1 + STOP_LOSS)) -
         (posC3.shares : ℚ) *
          (if barGap.price_open ≤ posC3.entry_price * (1 + STOP_LOSS) then
            barGap.price_open else posC3.entry_price * (1 + STOP_LOSS)) * COMMISSION),
       [{ exit_date := 7, symbol := posC3.symbol, entry_date := posC3.entry_date,
          entry_price := posC3.entry_price,
          exit_price := if barGap.price_open ≤ posC3.entry_price * (1 + STOP_LOSS) then
            barGap.price_open else posC3.entry_price * (1 + STOP_LOSS),
          ret := (if barGap.price_open ≤ posC3.entry_price * (1 + STOP_LOSS) then
            barGap.price_open else posC3.entry_price * (1 + STOP_LOSS)) / posC3.entry_price - 1,
          reason := "STOP_LOSS", days_held := posC3.days_held }]) ∧
    (step2 0 [barGap] [posC3] 0).2.2.map Trade.exit_price = [90] ∧
    (step2 0 [barTouch] [posC3] 0).2.2.map Trade.exit_price = [95] ∧
    (step2 0 [barGap] [posC3] 0).2.1 = 10 * 90 - 10 * 90 * COMMISSION ∧
    (step2 0 [barTouch] [posC3] 0).2.1 = 10 * 95 - 10 * 95 * COMMISSION :=
  stop_loss_fill_price_and_commission 7 [barGap] posC3 barGap 1000
    (by decide) (by decide)

/-- C4: in entry scheduling, a candidate with a next-day bar and free slots
is filled at `next-day open × (1 + SLIPPAGE_BUY)`, with
`shares = ⌊(cash / free_slots) / fill⌋` computed from the *current* cash and
free-slot count (so redistribution happens as the recursion debits cash and
decrements slots), and the entry is created — dated to the next trading day
with `days_held = 0` — iff `shares > 0` and the total cost
`shares × fill × (1 + COMMISSION)` is at most cash, debiting exactly that
cost.  Concretely, an open of 100 fills at 101 and a full slot of 20000
buys 198 shares for `198 × 101 × 1.002`. -/
theorem entry_scheduling_fill_and_debit (nd : ℕ) (ndata : Option (List Bar))
    (b : Bar) (bs : List Bar) (cash : ℚ) (port : List Position) (free : ℤ)
    (nrow : Bar) (hfree : 0 < free)
    (hheld : port.any (fun p => p.symbol == b.sym) = false)
    (hbar : ndata.bind (fun L => findBar L b.sym) = some nrow)
    (hopen : 0 < nrow.price_open) (hcash : 0 ≤ cash) :
    (step4 nd ndata (b :: bs) cash port free =
      if 0 < ⌊cash / (free : ℚ) / (nrow.price_open * (1 + SLIPPAGE_BUY))⌋ ∧
          (⌊cash / (free : ℚ) / (nrow.price_open * (1 + SLIPPAGE_BUY))⌋ : ℚ) *
            (nrow.price_open * (1 + SLIPPAGE_BUY)) * (1 + COMMISSION) ≤ cash then
        step4 nd ndata bs
          (cash - (⌊cash / (free : ℚ) / (nrow.price_open * (1 + SLIPPAGE_BUY))⌋ : ℚ) *
            (nrow.price_open * (1 + SLIPPAGE_BUY)) * (1 + COMMISSION))
          (port ++ [{ symbol := b.sym,
                      entry_price := nrow.price_open * (1 + SLIPPAGE_BUY),
                      shares := ⌊cash / (free : ℚ) / (nrow.price_open * (1 + SLIPPAGE_BUY))⌋,
                      entry_date := nd, days_held := 0,
                      exit_planned_date := none, exit_reason_planned := none }])
          (free - 1)
      else step4 nd ndata bs cash port free) ∧
    step4 1 (some [mkBar "A" 100 100 100 100 1]) [mkBar "A" 100 100 100 100 1]
        100000 [] 5 =
      (100000 - 198 * (100 * (1 + SLIPPAGE_BUY)) * (1 + COMMISSION),
       [{ symbol := "A", entry_price := 101, shares := 198, entry_date := 1,
          days_held := 0, exit_planned_date := none,
          exit_reason_planned := none }]) := by
  constructor
  · have hfill : (0 : ℚ) < nrow.price_open * (1 + SLIPPAGE_BUY) :=
      mul_pos hopen (by norm_num [SLIPPAGE_BUY])
    have hfq : (0 : ℚ) < (free : ℚ) := by exact_mod_cast hfree
    have hqnn : 0 ≤ cash / (free : ℚ) / (nrow.price_open * (1 + SLIPPAGE_BUY)) :=
      div_nonneg (div_nonneg hcash hfq.le) hfill.le
    have hshares : pyInt (cash / (free : ℚ) / (nrow.price_open * (1 + SLIPPAGE_BUY))) =
        ⌊cash / (free : ℚ) / (nrow.price_open * (1 + SLIPPAGE_BUY))⌋ := by
      unfold pyInt
      rw [if_neg (not_lt.mpr hqnn)]
    simp only [step4, if_neg (not_le.mpr hfree), hheld, Bool.false_eq_true,
      if_false, hbar, hshares]
    split_ifs <;> first | rfl | tauto
  · decide

/-- C4 witness: the general entry rule applied to a single candidate with
open 100, cash 100000 and 5 free slots. -/
theorem entry_scheduling_fill_and_debit_witness :
    (step4 1 (some [mkBar "A" 100 100 100 100 1]) [mkBar "A" 100 100 100 100 1]
        100000 [] 5 =
      if 0 < ⌊(100000 : ℚ) / ((5 : ℤ) : ℚ) /
            ((mkBar "A" 100 100 100 100 1).price_open * (1 + SLIPPAGE_BUY))⌋ ∧
          (⌊(100000 : ℚ) / ((5 : ℤ) : ℚ) /
            ((mkBar "A" 100 100 100 100 1).price_open * (1 + SLIPPAGE_BUY))⌋ : ℚ) *
            ((mkBar "A" 100 100 100 100 1).price_open * (1 + SLIPPAGE_BUY)) *
            (1 + COMMISSION) ≤ 100000 then
        step4 1 (some [mkBar "A" 100 100 100 100 1]) []
          (100000 - (⌊(100000 : ℚ) / ((5 : ℤ) : ℚ) /
            ((mkBar "A" 100 100 100 100 1).price_open * (1 + SLIPPAGE_BUY))⌋ : ℚ) *
            ((mkBar "A" 100 100 100 100 1).price_open * (1 + SLIPPAGE_BUY)) *
            (1 + COMMISSION))
          ([] ++ [{ symbol := (mkBar "A" 100 100 100 100 1).sym,
                    entry_price := (mkBar "A" 100 100 100 100 1).price_open *
                      (1 + SLIPPAGE_BUY),
                    shares := ⌊(100000 : ℚ) / ((5 : ℤ) : ℚ) /
                      ((mkBar "A" 100 100 100 100 1).price_open * (1 + SLIPPAGE_BUY))⌋,
                    entry_date := 1, days_held := 0,
                    exit_planned_date := none, exit_reason_planned := none }])
          ((5 : ℤ) - 1)
      else step4 1 (some [mkBar "A" 100 100 100 100 1]) [] 100000 [] 5) ∧
    step4 1 (some [mkBar "A" 100 100 100 100 1]) [mkBar "A" 100 100 100 100 1]
        100000 [] 5 =
      (100000 - 198 * (100 * (1 + SLIPPAGE_BUY)) * (1 + COMMISSION),
       [{ symbol := "A", entry_price := 101, shares := 198, entry_date := 1,
          days_held := 0, exit_planned_date := none,
          exit_reason_planned := none }]) :=
  entry_scheduling_fill_and_debit 1 (some [mkBar "A" 100 100 100 100 1])
    (mkBar "A" 100 100 100 100 1) [] 100000 [] 5
    (mkBar "A" 100 100 100 100 1) (by decide) (by decide) (by decide)
    (by decide) (by decide)

/-- C6: for every reachable simulator state of a market with nonnegative
open prices, cash is nonnegative after every transition: it is nonnegative
entering day `n`, does not decrease through the planned-exit pass (step 1)
nor through the stop-loss pass (step 2) — exit planning and mark-to-market
do not touch cash at all — and is still nonnegative after the entry pass
(step 4) that closes the day, because an entry is only filled when its total
cost is at most the current cash. -/
theorem cash_non_negative (market : List (List Bar)) (hmkt : opensNonneg market)
    (n : ℕ) (today : List Bar) (hget : market.get? n = some today) :
    0 ≤ (runN market n).cash ∧
    (runN market n).cash ≤
      (step1 n today (runN market n).portfolio (runN market n).cash).2.1 ∧
    (step1 n today (runN market n).portfolio (runN market n).cash).2.1 ≤
      (step2 n today (step1 n today (runN market n).portfolio (runN market n).cash).1
        (step1 n today (runN market n).portfolio (runN market n).cash).2.1).2.1 ∧
    0 ≤ (runN market (n + 1)).cash := by
  have hwf := runN_cashWF market hmkt n
  have htoday : ∀ b ∈ today, 0 ≤ b.price_open :=
    fun b hb => hmkt today (List.get?_mem hget) b hb
  have h1p : ∀ p ∈ (step1 n today (runN market n).portfolio (runN market n).cash).1,
      posCashWF p :=
    fun p h => hwf.2 p (step1_portfolio_sub n today _ _ p h)
  exact ⟨hwf.1,
    step1_cash_mono n today htoday _ _ hwf.2,
    step2_cash_mono n today htoday _ _ h1p,
    (runN_cashWF market hmkt (n + 1)).1⟩

/-- C6 witness: the invariant instantiated on the two-day market `mktW` at
day 0 (where the day-0 entry debits `198 × 101 × 1.002`). -/
theorem cash_non_negative_witness :
    0 ≤ (runN mktW 0).cash ∧
    (runN mktW 0).cash ≤
      (step1 0 [mkBar "A" 100 100 100 100 1] (runN mktW 0).portfolio
        (runN mktW 0).cash).2.1 ∧
    (step1 0 [mkBar "A" 100 100 100 100 1] (runN mktW 0).portfolio
        (runN mktW 0).cash).2.1 ≤
      (step2 0 [mkBar "A" 100 100 100 100 1]
        (step1 0 [mkBar "A" 100 100 100 100 1] (runN mktW 0).portfolio
          (runN mktW 0).cash).1
        (step1 0 [mkBar "A" 100 100 100 100 1] (runN mktW 0).portfolio
          (runN mktW 0).cash).2.1).2.1 ∧
    0 ≤ (runN mktW (0 + 1)).cash :=
  cash_non_negative mktW (by unfold opensNonneg; decide) 0
    [mkBar "A" 100 100 100 100 1] rfl

/-- C7 (amended): every `Trade` appended to the ledger carries exactly one
reason — the single `reason` field — and that reason lies in the code's
reason set `{STOP_LOSS, PLANNED, PERF_FAIL_RELAXED, STAGNATION_EXIT,
WEAK_RS_EXIT, TIME_EXIT, MODEL_TP}` (the claim's `PERF_FAIL` corrected to
the string the optimized backtester actually writes). -/
theorem trade_reason_in_code_reason_set (market : List (List Bar)) (n : ℕ)
    (t : Trade) (ht : t ∈ (runN market n).trade_log) :
    t.reason ∈ tradeReasons :=
  (runN_reasonsWF market n).2 t ht

/-- C7 witness: the reason of the one trade of the `mktC7` run is in the
code's reason set. -/
theorem trade_reason_in_code_reason_set_witness :
    ({ exit_date := 9, symbol := "A", entry_date := 1, entry_price := 101,
       exit_price := 19701/200, ret := -(499/20200),
       reason := "PERF_FAIL_RELAXED", days_held := 8 } : Trade).reason ∈
      tradeReasons :=
  trade_reason_in_code_reason_set mktC7 10 _ (by decide)

/-- C8 (amended): through one day's transition, every surviving position
keeps `symbol`, `entry_price`, `shares` and `entry_date` unchanged and has
`days_held` incremented by exactly one — and *additionally*, on a day when
an exit rule matches, the plan fields are set the same day (to the next
trading day with a step-3 reason); positions not surviving from the input
are fresh entries with `days_held = 0`, no plan, and `entry_date = dt + 1`. -/
theorem position_daily_mutation_frame (market : List (List Bar)) (dt : ℕ)
    (s : BTState) (today : List Bar) (hget : market.get? dt = some today)
    (q : Position) (hq : q ∈ (dayStep market dt s).portfolio) :
    (q.days_held = 0 ∧ q.exit_planned_date = none ∧
      q.exit_reason_planned = none ∧ q.entry_date = dt + 1 ∧ 0 < q.shares ∧
      ∃ L nrow, market.get? (dt + 1) = some L ∧ nrow ∈ L ∧
        q.entry_price = nrow.price_open * (1 + SLIPPAGE_BUY)) ∨
    ∃ p ∈ s.portfolio, q.symbol = p.symbol ∧ q.entry_price = p.entry_price ∧
      q.shares = p.shares ∧ q.entry_date = p.entry_date ∧
      q.days_held = p.days_held + 1 ∧
      ((q.exit_planned_date = p.exit_planned_date ∧
        q.exit_reason_planned = p.exit_reason_planned) ∨
       (p.exit_planned_date = none ∧ q.exit_planned_date = some (dt + 1) ∧
        ∃ r ∈ planReasons, q.exit_reason_planned = some r)) :=
  dayStep_portfolio_mem market dt s today hget q hq

/-- C8 witness: the frame property instantiated on `mktW`'s day 0, where the
only portfolio member after the transition is the fresh entry `posW`. -/
theorem position_daily_mutation_frame_witness :
    (posW.days_held = 0 ∧ posW.exit_planned_date = none ∧
      posW.exit_reason_planned = none ∧ posW.entry_date = 0 + 1 ∧
      0 < posW.shares ∧
      ∃ L nrow, mktW.get? (0 + 1) = some L ∧ nrow ∈ L ∧
        posW.entry_price = nrow.price_open * (1 + SLIPPAGE_BUY)) ∨
    ∃ p ∈ initState.portfolio, posW.symbol = p.symbol ∧
      posW.entry_price = p.entry_price ∧ posW.shares = p.shares ∧
      posW.entry_date = p.entry_date ∧ posW.days_held = p.days_held + 1 ∧
      ((posW.exit_planned_date = p.exit_planned_date ∧
        posW.exit_reason_planned = p.exit_reason_planned) ∨
       (p.exit_planned_date = none ∧ posW.exit_planned_date = some (0 + 1) ∧
        ∃ r ∈ planReasons, posW.exit_reason_planned = some r)) :=
  position_daily_mutation_frame mktW 0 initState
    [mkBar "A" 100 100 100 100 1] rfl posW (by decide)

/-- C9 (code bug, evaluated at the failing input): on the two-symbol frame
`rowsC9` (sorted by symbol then date) the code's true range for the first
row of symbol "B" is `991` — it measures `|high − prev_close|` against the
*previous frame row's* close `1000`, which belongs to symbol "A" — while the
spec's per-symbol true range is `|high − low| = 1`; the column therefore is
not computed from the symbol's own history only. -/
theorem true_range_cross_symbol_contamination :
    trListCode none rowsC9 = [10, 991] ∧
    trListSpec none rowsC9 = [10, 1] ∧
    trListCode none rowsC9 ≠ trListSpec none rowsC9 := by
  decide

/-- C10: the summary metrics equal their reference definitions:
`total_return` (code: `(final − initial)/initial`) equals
`final/initial − 1`; the Sharpe ratio (code: guarded `mean/std × √252`)
equals the unguarded `mean/std × √252` of the spec (division by a zero std
yields 0 on both sides); the max drawdown (pandas `.min()` over
`(equity − cummax)/cummax`, a left fold) equals the spec's minimum over
time; and the win rate (`(returns > 0).mean()`) equals the fraction of
trades with positive return. -/
theorem summary_metrics_match_reference (initial : ℚ) (vals rets : List ℚ)
    (h0 : initial ≠ 0) :
    total_return initial vals = ref_total_return initial vals ∧
    sharpe_ratio (pctChange vals) = ref_sharpe (pctChange vals) ∧
    max_drawdown vals = ref_max_drawdown vals ∧
    win_rate rets = ref_win_rate rets := by
  refine ⟨?_, ?_, ?_, ?_⟩
  · unfold total_return ref_total_return
    rw [sub_div, div_self h0]
  · unfold sharpe_ratio ref_sharpe
    split_ifs with h
    · rw [h, div_zero, zero_mul]
    · rfl
  · unfold max_drawdown ref_max_drawdown
    cases drawdowns vals with
    | nil => rfl
    | cons d ds =>
      simp only [listMin]
      exact List.foldl_eq_foldr d ds
  · unfold win_rate ref_win_rate
    rw [List.countP_eq_length_filter]

/-- C10 witness: the metric equalities at a concrete two-point equity curve
and two-trade return list. -/
theorem summary_metrics_match_reference_witness :
    total_return 100 [100, 110] = ref_total_return 100 [100, 110] ∧
    sharpe_ratio (pctChange [100, 110]) = ref_sharpe (pctChange [100, 110]) ∧
    max_drawdown [100, 110] = ref_max_drawdown [100, 110] ∧
    win_rate [1, -(1 : ℚ)] = ref_win_rate [1, -(1 : ℚ)] :=
  summary_metrics_match_reference 100 [100, 110] [1, -(1 : ℚ)] (by decide)

end QuantTrade
